import Mathlib

/-!
Verification of the read-through caching / invalidation engine of the
e-commerce catalog API (`CachingMixin`, `CategoryViewSet`, `ProductViewSet`
in `store/views.py`, together with the referential-integrity delete
behaviour of `store/models.py`).

The embedding is shallow: Django's cache client is modelled as an
association list from string keys to values with an optional TTL, request
handling is explicit state passing, and every cache-store primitive both
logs an event (so that frame claims such as "no cache read happens" are
expressible) and can be made to fail through an environment of failure
flags (so that error-handling claims are expressible).  Values stored in
the cache are modelled as Python-like data (`PyVal`) because the engine's
hit test is Python truthiness, not presence.
-/

/-- An entity row of the underlying relational store.  Categories and
products share one record shape; `catSlug` is the slug of the owning
category (meaningful for products), mirroring the `category` foreign key. -/
structure Entity where
  eid : Nat
  name : String
  slug : String
  price : Nat
  discountPrice : Option Nat
  stock : Nat
  featured : Bool
  isActive : Bool
  catSlug : String
  deriving Repr, DecidableEq

/-- The underlying data store: category rows, product rows, and the set of
product ids referenced by existing `OrderItem` rows (the dependency that
blocks deletion). -/
structure Db where
  cats : List Entity
  prods : List Entity
  orderItems : List Nat
  deriving Repr, DecidableEq

/-- A serialized entity representation: what the detail serializer emits as
`response.data` for one instance (a dict of the fields below). -/
structure SerEntity where
  sid : Nat
  sname : String
  sslug : String
  sprice : Nat
  sdiscountPrice : Option Nat
  sstock : Nat
  sfeatured : Bool
  scatSlug : String
  deriving Repr, DecidableEq

/-- The shapes of Python values that ever live in the cache store: a
serialized list response (a list of dicts), a serialized detail response
(a dict), and the key registry (a list of key strings).  `pyNone` models
Python `None`. -/
inductive PyVal where
  | pyNone : PyVal
  | pyListData (xs : List SerEntity) : PyVal
  | pyDetailData (e : SerEntity) : PyVal
  | pyKeys (ks : List String) : PyVal
  deriving Repr, DecidableEq

/-- Python truthiness, as used by the hit checks `if cached_data:` in
`CachingMixin.list` and `CachingMixin.retrieve`: `None` and empty lists
are falsy, a non-empty dict (any serialized entity) is truthy. -/
def truthy : PyVal → Bool
  | PyVal.pyNone => false
  | PyVal.pyListData xs => !xs.isEmpty
  | PyVal.pyDetailData _ => true
  | PyVal.pyKeys ks => !ks.isEmpty

/-- The two cached collections, i.e. the two concrete ViewSets. -/
inductive Coll where
  | categories : Coll
  | products : Coll
  deriving Repr, DecidableEq

/-- `cache_base_key` as set by the subclasses: `'categories'` on
`CategoryViewSet` and `'products'` on `ProductViewSet`. -/
def cache_base_key : Coll → String
  | Coll.categories => "categories"
  | Coll.products => "products"

/-- One cache-store entry: value plus optional TTL (`none` = no expiry,
matching `timeout=None`). -/
abbrev Store := List (String × PyVal × Option Nat)

/-- Look up a key in the cache store. -/
def lookupK (st : Store) (k : String) : Option (PyVal × Option Nat) :=
  (st.find? (fun e => e.1 == k)).map (fun e => e.2)

/-- Value stored under a key, if any. -/
def lookupVal (st : Store) (k : String) : Option PyVal :=
  (lookupK st k).map (fun e => e.1)

/-- Remove every binding of a key (`cache.delete`). -/
def eraseK (k : String) (st : Store) : Store :=
  st.filter (fun e => e.1 != k)

/-- Bind a key to a value with a TTL (`cache.set`), replacing any previous
binding. -/
def setK (k : String) (v : PyVal) (ttl : Option Nat) (st : Store) : Store :=
  (k, v, ttl) :: eraseK k st

/-- Observable events of one request: cache-store operations and
executions of the underlying query layer. -/
inductive Ev where
  | cget (k : String) : Ev
  | cset (k : String) (ttl : Option Nat) : Ev
  | cdel (k : String) : Ev
  | dbq (c : Coll) : Ev
  | dbg (c : Coll) (i : Nat) : Ev
  deriving Repr, DecidableEq

/-- Failure environment for the cache store: which keys each primitive
fails on.  `get`/`set`/`delete` raising models an unavailable store. -/
structure Env where
  failGet : String → Bool
  failSet : String → Bool
  failDel : String → Bool

/-- The failure-free environment: every store operation succeeds. -/
def noFail : Env where
  failGet := fun _ => false
  failSet := fun _ => false
  failDel := fun _ => false

/-- Full system state: cache store, underlying database, event log. -/
structure St where
  store : Store
  db : Db
  log : List Ev
  deriving Repr

/-- Append an event to the log. -/
def pushEv (s : St) (e : Ev) : St :=
  { s with log := s.log ++ [e] }

/-- Errors a request can end in: a surfaced cache-store failure, a 404
from the underlying query layer, or the DRF `ValidationError` raised by
`perform_destroy`. -/
inductive EErr where
  | cacheFail (k : String) : EErr
  | notFound : EErr
  | validationError (msg : String) : EErr
  deriving Repr, DecidableEq

/-- `cache.get(key)`: logs the access, fails when the environment says so,
otherwise returns the stored value (or `none` on absence, Python `None`). -/
def cacheGet (env : Env) (k : String) (s : St) :
    Except EErr (Option PyVal) × St :=
  let s1 := pushEv s (Ev.cget k)
  if env.failGet k then (Except.error (EErr.cacheFail k), s1)
  else (Except.ok (lookupVal s1.store k), s1)

/-- `cache.set(key, value, timeout)`. -/
def cacheSet (env : Env) (k : String) (v : PyVal) (ttl : Option Nat) (s : St) :
    Except EErr Unit × St :=
  let s1 := pushEv s (Ev.cset k ttl)
  if env.failSet k then (Except.error (EErr.cacheFail k), s1)
  else (Except.ok (), { s1 with store := setK k v ttl s1.store })

/-- `cache.delete(key)`. -/
def cacheDelete (env : Env) (k : String) (s : St) :
    Except EErr Unit × St :=
  let s1 := pushEv s (Ev.cdel k)
  if env.failDel k then (Except.error (EErr.cacheFail k), s1)
  else (Except.ok (), { s1 with store := eraseK k s1.store })

/-- Default cache TTL: `CACHE_TTL = getattr(settings, 'CACHE_TTL', 60 * 5)`. -/
def CACHE_TTL : Nat := 60 * 5

/-- The request query parameters the caching layer inspects:
`search`, `ordering`, `category__slug` (empty string = parameter absent,
matching `request.query_params.get(..., '')`). -/
structure Query where
  search : String
  ordering : String
  categorySlug : String
  deriving Repr, DecidableEq

/-- The request with no search, ordering or filter parameters. -/
def emptyQuery : Query := { search := "", ordering := "", categorySlug := "" }

/-- `CachingMixin.get_cache_key_list`: `None` when any of the three
parameters is non-empty (cache bypass), otherwise the constant
`f"{self.cache_base_key}_list:"`. -/
def get_cache_key_list (c : Coll) (q : Query) : Option String :=
  if !q.search.isEmpty || !q.ordering.isEmpty || !q.categorySlug.isEmpty then
    none
  else
    some (cache_base_key c ++ "_list:")

/-- `CachingMixin.get_cache_key_detail`: `f"{self.cache_base_key}_detail:{instance_id}"`. -/
def get_cache_key_detail (c : Coll) (instance_id : Nat) : String :=
  cache_base_key c ++ "_detail:" ++ toString instance_id

/-- The detail cache key computed inline by `CachingMixin.retrieve`:
`'category_detail:{id}'` when `cache_base_key == 'categories'`, otherwise
`'product_detail:{id}'` (note the singular, unlike `get_cache_key_detail`). -/
def retrieve_cache_key (c : Coll) (instance_id : Nat) : String :=
  if cache_base_key c = "categories" then
    "category_detail:" ++ toString instance_id
  else
    "product_detail:" ++ toString instance_id

/-- The fixed key the key registry of a collection lives under:
`f"{self.cache_base_key}_list_keys"`. -/
def registry_key (c : Coll) : String :=
  cache_base_key c ++ "_list_keys"

/-- Decode a stored registry value: the engine only ever stores
`pyKeys` lists there; an absent entry decodes to the empty default
(`cache.get(..., [])` / `cache.get(..., set())`). -/
def regKeysOf : Option PyVal → List String
  | some (PyVal.pyKeys ks) => ks
  | _ => []

/-- The rows of a collection in the underlying store. -/
def collRows (c : Coll) (db : Db) : List Entity :=
  match c with
  | Coll.categories => db.cats
  | Coll.products => db.prods

/-- Serialization of one entity (the external serializer boundary of the
spec: "produce a serializable representation of entity E"). -/
def serializeEntity (e : Entity) : SerEntity :=
  { sid := e.eid, sname := e.name, sslug := e.slug, sprice := e.price,
    sdiscountPrice := e.discountPrice, sstock := e.stock,
    sfeatured := e.featured, scatSlug := e.catSlug }

/-- Substring test used to model the DRF `SearchFilter` (external
collaborator): a non-empty needle matches when it occurs in the name. -/
def containsSub (hay needle : String) : Bool :=
  needle.isEmpty || (hay.splitOn needle).length != 1

/-- Whether an entity matches the external filter backends for a request:
active rows only, exact `category__slug` match, name search. -/
def matchesQuery (q : Query) (e : Entity) : Bool :=
  e.isActive &&
    (q.categorySlug.isEmpty || e.catSlug == q.categorySlug) &&
    containsSub e.name q.search

/-- Insertion sort by a numeric key (ascending); models the external
`OrderingFilter` collaborator. -/
def insertByKey (f : Entity → Nat) (e : Entity) : List Entity → List Entity
  | [] => [e]
  | x :: xs => if f e ≤ f x then e :: x :: xs else x :: insertByKey f e xs

/-- Sort by a numeric key (ascending). -/
def sortByKey (f : Entity → Nat) : List Entity → List Entity
  | [] => []
  | x :: xs => insertByKey f x (sortByKey f xs)

/-- Apply the `ordering` query parameter (fields `price`, `stock`, with
optional leading `-`); any other value, including the empty string, leaves
the sequence in its default order. -/
def applyOrdering (o : String) (xs : List Entity) : List Entity :=
  if o = "price" then sortByKey (fun e => e.price) xs
  else if o = "-price" then (sortByKey (fun e => e.price) xs).reverse
  else if o = "stock" then sortByKey (fun e => e.stock) xs
  else if o = "-stock" then (sortByKey (fun e => e.stock) xs).reverse
  else xs

/-- The underlying list query execution (`super().list(...)`, an external
collaborator per the spec): filter the active rows by the request
parameters, order them, and serialize. -/
def underlyingList (c : Coll) (db : Db) (q : Query) : PyVal :=
  PyVal.pyListData
    ((applyOrdering q.ordering ((collRows c db).filter (matchesQuery q))).map
      serializeEntity)

/-- The underlying detail query (`super().retrieve(...)` / `queryById`):
the active row with the given id, if any. -/
def queryById (c : Coll) (db : Db) (i : Nat) : Option Entity :=
  (collRows c db).find? (fun e => e.isActive && e.eid == i)

/-- `CachingMixin.list`, cache-miss path (lines 81-100): execute the
underlying query; when its data is not `None`, best-effort write the value
plus the key-registry update inside one `try/except` (a store failure is
logged and swallowed, the fresh data is returned regardless). -/
def listMiss (env : Env) (c : Coll) (q : Query) (cache_key : String) (s : St) :
    Except EErr PyVal × St :=
  let s1 := pushEv s (Ev.dbq c)
  let data := underlyingList c s1.db q
  if data = PyVal.pyNone then
    (Except.ok data, s1)
  else
    match cacheSet env cache_key data (some CACHE_TTL) s1 with
    | (Except.error _, s2) => (Except.ok data, s2)
    | (Except.ok _, s2) =>
      match cacheGet env (registry_key c) s2 with
      | (Except.error _, s3) => (Except.ok data, s3)
      | (Except.ok r, s3) =>
        let cache_keys := regKeysOf r
        if cache_keys.contains cache_key then
          (Except.ok data, s3)
        else
          match cacheSet env (registry_key c)
              (PyVal.pyKeys (cache_keys ++ [cache_key])) none s3 with
          | (_, s4) => (Except.ok data, s4)

/-- `CachingMixin.list` (lines 62-100): bypass the cache entirely when the
key is `None`; otherwise a raw `cache.get` (not wrapped in `try`), the
truthiness hit test, and on miss the populating path. -/
def CachingMixin.list (env : Env) (c : Coll) (q : Query) (s : St) :
    Except EErr PyVal × St :=
  match get_cache_key_list c q with
  | none =>
    let s1 := pushEv s (Ev.dbq c)
    (Except.ok (underlyingList c s1.db q), s1)
  | some cache_key =>
    match cacheGet env cache_key s with
    | (Except.error e, s1) => (Except.error e, s1)
    | (Except.ok cached, s1) =>
      let cached_data := cached.getD PyVal.pyNone
      if truthy cached_data then
        (Except.ok cached_data, s1)
      else
        listMiss env c q cache_key s1

/-- `CachingMixin.retrieve`, cache-miss path (lines 117-125): run the
underlying lookup (404 when no active row has the id), then best-effort
write the detail entry. -/
def retrieveMiss (env : Env) (c : Coll) (i : Nat) (cache_key : String) (s : St) :
    Except EErr PyVal × St :=
  let s1 := pushEv s (Ev.dbg c i)
  match queryById c s1.db i with
  | none => (Except.error EErr.notFound, s1)
  | some e =>
    let data := PyVal.pyDetailData (serializeEntity e)
    match cacheSet env cache_key data (some CACHE_TTL) s1 with
    | (_, s2) => (Except.ok data, s2)

/-- `CachingMixin.retrieve` (lines 102-125): the inline singular detail
key, a raw `cache.get`, the truthiness hit test, and on miss the
populating path. -/
def CachingMixin.retrieve (env : Env) (c : Coll) (i : Nat) (s : St) :
    Except EErr PyVal × St :=
  let cache_key := retrieve_cache_key c i
  match cacheGet env cache_key s with
  | (Except.error e, s1) => (Except.error e, s1)
  | (Except.ok cached, s1) =>
    let cached_data := cached.getD PyVal.pyNone
    if truthy cached_data then
      (Except.ok cached_data, s1)
    else
      retrieveMiss env c i cache_key s1

/-- The sweep loop `for key in list_cache_keys: cache.delete(key)`:
sequential deletes with no exception handling, so the first failing delete
aborts the loop and propagates. -/
def sweepDel (env : Env) : List String → St → Except EErr Unit × St
  | [], s => (Except.ok (), s)
  | k :: ks, s =>
    match cacheDelete env k s with
    | (Except.error e, s1) => (Except.error e, s1)
    | (Except.ok _, s1) => sweepDel env ks s1

/-- `CachingMixin._invalidate_related_caches` (lines 127-145): delete the
detail key twice (lines 133 and 134 both produce
`f"{cache_base_key}_detail:{id}"`), read the registry, delete every
registered key, delete the registry entry, and for `cache_base_key ==
'products'` delete the two derived-view keys.  No operation here is
wrapped in `try`, so any store failure propagates. -/
def CachingMixin.invalidate_related_caches (env : Env) (c : Coll)
    (instance_id : Option Nat) (s : St) : Except EErr Unit × St :=
  let afterDetail : Except EErr Unit × St :=
    match instance_id with
    | none => (Except.ok (), s)
    | some i =>
      match cacheDelete env (cache_base_key c ++ "_detail:" ++ toString i) s with
      | (Except.error e, s1) => (Except.error e, s1)
      | (Except.ok _, s1) => cacheDelete env (get_cache_key_detail c i) s1
  match afterDetail with
  | (Except.error e, s1) => (Except.error e, s1)
  | (Except.ok _, s1) =>
    match cacheGet env (registry_key c) s1 with
    | (Except.error e, s2) => (Except.error e, s2)
    | (Except.ok r, s2) =>
      match sweepDel env (regKeysOf r) s2 with
      | (Except.error e, s3) => (Except.error e, s3)
      | (Except.ok _, s3) =>
        match cacheDelete env (registry_key c) s3 with
        | (Except.error e, s4) => (Except.error e, s4)
        | (Except.ok _, s4) =>
          if cache_base_key c = "products" then
            match cacheDelete env "product_featured" s4 with
            | (Except.error e, s5) => (Except.error e, s5)
            | (Except.ok _, s5) => cacheDelete env "product_discounted" s5
          else
            (Except.ok (), s4)

/-- `ProductViewSet._invalidate_related_caches` (lines 235-242): the mixin
sweep first, then one more unconditional delete of each derived-view key. -/
def ProductViewSet.invalidate_related_caches (env : Env)
    (instance_id : Option Nat) (s : St) : Except EErr Unit × St :=
  match CachingMixin.invalidate_related_caches env Coll.products instance_id s with
  | (Except.error e, s1) => (Except.error e, s1)
  | (Except.ok _, s1) =>
    match cacheDelete env "product_featured" s1 with
    | (Except.error e, s2) => (Except.error e, s2)
    | (Except.ok _, s2) => cacheDelete env "product_discounted" s2

/-- Dispatch of `self._invalidate_related_caches(...)`: `CategoryViewSet`
inherits the mixin method, `ProductViewSet` overrides it. -/
def invalidateFor (env : Env) (c : Coll) (instance_id : Option Nat) (s : St) :
    Except EErr Unit × St :=
  match c with
  | Coll.categories => CachingMixin.invalidate_related_caches env Coll.categories instance_id s
  | Coll.products => ProductViewSet.invalidate_related_caches env instance_id s

/-- Insert a new row into a collection (`serializer.save()` on create). -/
def dbCreate (c : Coll) (e : Entity) (db : Db) : Db :=
  match c with
  | Coll.categories => { db with cats := db.cats ++ [e] }
  | Coll.products => { db with prods := db.prods ++ [e] }

/-- Replace the row with the same id (`serializer.save()` on update). -/
def dbUpdate (c : Coll) (e : Entity) (db : Db) : Db :=
  match c with
  | Coll.categories =>
    { db with cats := db.cats.map (fun x => if x.eid == e.eid then e else x) }
  | Coll.products =>
    { db with prods := db.prods.map (fun x => if x.eid == e.eid then e else x) }

/-- `CachingMixin.perform_create` (lines 147-152): write, then invalidate
with no instance id. -/
def CachingMixin.perform_create (env : Env) (c : Coll) (e : Entity) (s : St) :
    Except EErr Unit × St :=
  invalidateFor env c none { s with db := dbCreate c e s.db }

/-- `CachingMixin.perform_update` (lines 154-159): write, then invalidate
with `serializer.instance.id`. -/
def CachingMixin.perform_update (env : Env) (c : Coll) (e : Entity) (s : St) :
    Except EErr Unit × St :=
  invalidateFor env c (some e.eid) { s with db := dbUpdate c e s.db }

/-- Whether a product row has dependent `OrderItem` rows
(`instance.orderitem_set.exists()`). -/
def hasOrderItems (db : Db) (pid : Nat) : Bool :=
  db.orderItems.contains pid

/-- Whether any product of a category has dependent `OrderItem` rows: the
precondition `Category.delete` checks before cascading
(`self.products.filter(orderitem__isnull=False)`). -/
def categoryHasDependents (db : Db) (catSlug : String) : Bool :=
  db.prods.any (fun p => p.catSlug == catSlug && hasOrderItems db p.eid)

/-- The database after a successful delete of an instance:
`Product.delete` removes its (empty, by precondition) `orderitem_set` and
the row; `Category.delete` removes the category's products (and their
order items) and then the row. -/
def dbDestroy (c : Coll) (inst : Entity) (db : Db) : Db :=
  match c with
  | Coll.products =>
    { db with
      prods := db.prods.filter (fun p => p.eid != inst.eid),
      orderItems := db.orderItems.filter (fun oi => oi != inst.eid) }
  | Coll.categories =>
    let gone := db.prods.filter (fun p => p.catSlug == inst.slug)
    { db with
      cats := db.cats.filter (fun x => x.eid != inst.eid),
      prods := db.prods.filter (fun p => p.catSlug != inst.slug),
      orderItems := db.orderItems.filter
        (fun oi => !(gone.any (fun p => p.eid == oi))) }

/-- Whether a delete is refused: a product with dependent order items
(the `hasattr` check in `perform_destroy`), or a category one of whose
products has dependent order items (the check in `Category.delete`). -/
def destroyBlocked (c : Coll) (inst : Entity) (db : Db) : Bool :=
  match c with
  | Coll.products => hasOrderItems db inst.eid
  | Coll.categories => categoryHasDependents db inst.slug

/-- `CachingMixin.perform_destroy` (lines 161-175) applied to a resolved
instance: inside `try`, the referential-integrity precondition, then
`super().perform_destroy` runs the model `delete()`; any exception is
logged and re-raised as a DRF `ValidationError`.  On success the
invalidation sweep runs, outside the `try`. -/
def CachingMixin.perform_destroy (env : Env) (c : Coll) (inst : Entity) (s : St) :
    Except EErr Unit × St :=
  let instance_id := inst.eid
  if destroyBlocked c inst s.db then
    (Except.error (EErr.validationError ("Cannot delete " ++ inst.name)), s)
  else
    invalidateFor env c (some instance_id) { s with db := dbDestroy c inst s.db }

/-- The `destroy` entry point: resolve the instance through the active
queryset (`get_object`, 404 when absent) and run `perform_destroy`. -/
def destroyEndpoint (env : Env) (c : Coll) (i : Nat) (s : St) :
    Except EErr Unit × St :=
  match queryById c s.db i with
  | none => (Except.error EErr.notFound, s)
  | some inst => CachingMixin.perform_destroy env c inst s

/-- The underlying featured-products query
(`get_queryset().filter(is_featured=True)`). -/
def featuredQuery (db : Db) : PyVal :=
  PyVal.pyListData
    ((db.prods.filter (fun p => p.isActive && p.featured)).map serializeEntity)

/-- The underlying discounted-products query
(`discount_price__isnull=False, discount_price__lt=F('price')`). -/
def discountedQuery (db : Db) : PyVal :=
  PyVal.pyListData
    ((db.prods.filter (fun p =>
      p.isActive &&
        (match p.discountPrice with
         | some d => decide (d < p.price)
         | none => false))).map serializeEntity)

/-- `ProductViewSet.featured` (lines 244-264): fixed key, raw get,
truthiness hit test, best-effort populate. -/
def ProductViewSet.featured (env : Env) (s : St) : Except EErr PyVal × St :=
  match cacheGet env "product_featured" s with
  | (Except.error e, s1) => (Except.error e, s1)
  | (Except.ok cached, s1) =>
    let cached_data := cached.getD PyVal.pyNone
    if truthy cached_data then
      (Except.ok cached_data, s1)
    else
      let s2 := pushEv s1 (Ev.dbq Coll.products)
      let data := featuredQuery s2.db
      match cacheSet env "product_featured" data (some CACHE_TTL) s2 with
      | (_, s3) => (Except.ok data, s3)

/-- `ProductViewSet.discounted` (lines 266-290): fixed key, raw get,
truthiness hit test, best-effort populate. -/
def ProductViewSet.discounted (env : Env) (s : St) : Except EErr PyVal × St :=
  match cacheGet env "product_discounted" s with
  | (Except.error e, s1) => (Except.error e, s1)
  | (Except.ok cached, s1) =>
    let cached_data := cached.getD PyVal.pyNone
    if truthy cached_data then
      (Except.ok cached_data, s1)
    else
      let s2 := pushEv s1 (Ev.dbq Coll.products)
      let data := discountedQuery s2.db
      match cacheSet env "product_discounted" data (some CACHE_TTL) s2 with
      | (_, s3) => (Except.ok data, s3)

/-- One engine-level action of the system: the read endpoints, the three
mutation hooks, and passive TTL expiry of one key. -/
inductive Act where
  | alist (c : Coll) (q : Query) : Act
  | aretrieve (c : Coll) (i : Nat) : Act
  | afeatured : Act
  | adiscounted : Act
  | acreate (c : Coll) (e : Entity) : Act
  | aupdate (c : Coll) (e : Entity) : Act
  | adestroy (c : Coll) (i : Nat) : Act
  | aexpire (k : String) : Act
  deriving Repr

/-- TTL expiry of a key: entries stored with a finite timeout can vanish
at any time; entries stored with `timeout=None` never expire. -/
def expireK (k : String) (st : Store) : Store :=
  match lookupK st k with
  | some (_, some _) => eraseK k st
  | _ => st

/-- Apply one action to the state, discarding the request's result. -/
def stepA (env : Env) (a : Act) (s : St) : St :=
  match a with
  | Act.alist c q => (CachingMixin.list env c q s).2
  | Act.aretrieve c i => (CachingMixin.retrieve env c i s).2
  | Act.afeatured => (ProductViewSet.featured env s).2
  | Act.adiscounted => (ProductViewSet.discounted env s).2
  | Act.acreate c e => (CachingMixin.perform_create env c e s).2
  | Act.aupdate c e => (CachingMixin.perform_update env c e s).2
  | Act.adestroy c i => (destroyEndpoint env c i s).2
  | Act.aexpire k => { s with store := expireK k s.store }

/-- Run a sequence of actions. -/
def runActs (env : Env) (acts : List Act) (s : St) : St :=
  acts.foldl (fun s a => stepA env a s) s

/-- The initial state over a given database: empty cache, empty log. -/
def initSt (db : Db) : St :=
  { store := [], db := db, log := [] }

theorem append_ne_of_not_prefix {a b : String} (h : ¬ a.data <+: b.data) :
    ∀ x : String, a ++ x ≠ b := by
  intro x hx
  apply h
  refine ⟨x.data, ?_⟩
  have hd := congrArg String.data hx
  simpa [String.data_append] using hd

theorem lookupK_eraseK_self (k : String) (st : Store) :
    lookupK (eraseK k st) k = none := by
  simp only [lookupK, eraseK, List.find?_filter]
  have hf : List.find? (fun a : String × PyVal × Option Nat =>
      decide ((a.1 != k) = true ∧ (a.1 == k) = true)) st = none := by
    rw [List.find?_eq_none]
    intro e _
    simp
  rw [hf]
  rfl

theorem lookupK_eraseK_ne (k k2 : String) (st : Store) (h : k2 ≠ k) :
    lookupK (eraseK k st) k2 = lookupK st k2 := by
  simp only [lookupK, eraseK, List.find?_filter]
  have hp : (fun a : String × PyVal × Option Nat =>
      decide ((a.1 != k) = true ∧ (a.1 == k2) = true)) = (fun a => a.1 == k2) := by
    funext a
    by_cases ha : a.1 = k2
    · subst ha
      simp [h]
    · simp [ha]
  rw [hp]

theorem lookupK_setK_self (k : String) (v : PyVal) (t : Option Nat) (st : Store) :
    lookupK (setK k v t st) k = some (v, t) := by
  simp [lookupK, setK, List.find?]

theorem lookupK_setK_ne (k k2 : String) (v : PyVal) (t : Option Nat) (st : Store)
    (h : k2 ≠ k) : lookupK (setK k v t st) k2 = lookupK st k2 := by
  simp only [setK, lookupK, List.find?]
  have hh : ((k, v, t).1 == k2) = false := by simp [Ne.symm h]
  simp only [hh]
  have ht := lookupK_eraseK_ne k k2 st h
  simpa [lookupK] using ht

theorem eraseK_of_lookupK_none (k : String) (st : Store)
    (h : lookupK st k = none) : eraseK k st = st := by
  have hall : ∀ e ∈ st, (e.1 == k) = false := by
    intro e he
    simp only [lookupK] at h
    rcases hf : List.find? (fun a : String × PyVal × Option Nat => a.1 == k) st with _ | w
    · have hne := List.find?_eq_none.mp hf e he
      simpa only [Bool.not_eq_true] using hne
    · rw [hf] at h
      simp at h
  unfold eraseK
  apply List.filter_eq_self.mpr
  intro e he
  rw [bne_iff_ne]
  exact beq_eq_false_iff_ne.mp (hall e he)

theorem lookupVal_eraseK_self (k : String) (st : Store) :
    lookupVal (eraseK k st) k = none := by
  simp [lookupVal, lookupK_eraseK_self]

theorem lookupVal_eraseK_ne (k k2 : String) (st : Store) (h : k2 ≠ k) :
    lookupVal (eraseK k st) k2 = lookupVal st k2 := by
  simp [lookupVal, lookupK_eraseK_ne k k2 st h]

theorem lookupVal_setK_self (k : String) (v : PyVal) (t : Option Nat) (st : Store) :
    lookupVal (setK k v t st) k = some v := by
  simp [lookupVal, lookupK_setK_self]

theorem lookupVal_setK_ne (k k2 : String) (v : PyVal) (t : Option Nat) (st : Store)
    (h : k2 ≠ k) : lookupVal (setK k v t st) k2 = lookupVal st k2 := by
  simp [lookupVal, lookupK_setK_ne k k2 v t st h]

/-- Erase a list of keys left to right, the store effect of the sweep loop. -/
def eraseList (ks : List String) (st : Store) : Store :=
  ks.foldl (fun st k => eraseK k st) st

theorem eraseList_nil (st : Store) : eraseList [] st = st := rfl

theorem eraseList_cons (k : String) (ks : List String) (st : Store) :
    eraseList (k :: ks) st = eraseList ks (eraseK k st) := rfl

theorem lookupK_eraseK_none (k k2 : String) (st : Store)
    (h : lookupK st k = none) : lookupK (eraseK k2 st) k = none := by
  by_cases hk : k = k2
  · subst hk
    exact lookupK_eraseK_self k st
  · rw [lookupK_eraseK_ne k2 k st hk]
    exact h

theorem lookupK_eraseList_none (ks : List String) (k : String) (st : Store)
    (h : lookupK st k = none) : lookupK (eraseList ks st) k = none := by
  induction ks generalizing st with
  | nil => exact h
  | cons k2 ks ih =>
    rw [eraseList_cons]
    exact ih (eraseK k2 st) (lookupK_eraseK_none k k2 st h)

theorem lookupK_eraseList_mem (ks : List String) (k : String) (st : Store)
    (h : k ∈ ks) : lookupK (eraseList ks st) k = none := by
  induction ks generalizing st with
  | nil => cases h
  | cons k2 ks ih =>
    rw [eraseList_cons]
    rcases List.mem_cons.mp h with h1 | h1
    · subst h1
      exact lookupK_eraseList_none ks k (eraseK k st) (lookupK_eraseK_self k st)
    · exact ih (eraseK k2 st) h1

theorem lookupK_eraseList_not_mem (ks : List String) (k : String) (st : Store)
    (h : k ∉ ks) : lookupK (eraseList ks st) k = lookupK st k := by
  induction ks generalizing st with
  | nil => rfl
  | cons k2 ks ih =>
    rw [eraseList_cons]
    have hne : k ≠ k2 := fun hx => h (hx ▸ List.mem_cons_self k2 ks)
    rw [ih (eraseK k2 st) (fun hx => h (List.mem_cons_of_mem k2 hx))]
    exact lookupK_eraseK_ne k2 k st hne

theorem eraseList_of_all_none (ks : List String) (st : Store)
    (h : ∀ k ∈ ks, lookupK st k = none) : eraseList ks st = st := by
  induction ks with
  | nil => rfl
  | cons k2 ks ih =>
    rw [eraseList_cons]
    have hk2 : lookupK st k2 = none := h k2 (List.mem_cons_self k2 ks)
    have hvk2 : lookupVal st k2 = none := by simp [lookupVal, hk2]
    rw [eraseK_of_lookupK_none k2 st hk2]
    exact ih (fun k hk => h k (List.mem_cons_of_mem k2 hk))

theorem cacheGet_noFail (k : String) (s : St) :
    cacheGet noFail k s =
      (Except.ok (lookupVal s.store k), { s with log := s.log ++ [Ev.cget k] }) := by
  simp [cacheGet, noFail, pushEv]

theorem cacheSet_noFail (k : String) (v : PyVal) (t : Option Nat) (s : St) :
    cacheSet noFail k v t s =
      (Except.ok (), { s with store := setK k v t s.store,
                              log := s.log ++ [Ev.cset k t] }) := by
  simp [cacheSet, noFail, pushEv]

theorem cacheDelete_noFail (k : String) (s : St) :
    cacheDelete noFail k s =
      (Except.ok (), { s with store := eraseK k s.store,
                              log := s.log ++ [Ev.cdel k] }) := by
  simp [cacheDelete, noFail, pushEv]

theorem sweepDel_noFail (ks : List String) (s : St) :
    sweepDel noFail ks s =
      (Except.ok (), { s with store := eraseList ks s.store,
                              log := s.log ++ ks.map Ev.cdel }) := by
  induction ks generalizing s with
  | nil => simp [sweepDel, eraseList_nil]
  | cons k ks ih =>
    simp only [sweepDel, cacheDelete_noFail]
    rw [ih]
    simp [eraseList_cons]

/-- The pure store effect of `CachingMixin._invalidate_related_caches`
under a failure-free store. -/
def invStoreMixin (c : Coll) (iid : Option Nat) (st : Store) : Store :=
  let st1 :=
    match iid with
    | none => st
    | some i =>
      eraseK (get_cache_key_detail c i)
        (eraseK (cache_base_key c ++ "_detail:" ++ toString i) st)
  let ks := regKeysOf (lookupVal st1 (registry_key c))
  let st2 := eraseK (registry_key c) (eraseList ks st1)
  if cache_base_key c = "products" then
    eraseK "product_discounted" (eraseK "product_featured" st2)
  else
    st2

/-- The pure store effect of `self._invalidate_related_caches(...)` as
dispatched on the two ViewSets, under a failure-free store. -/
def invStore (c : Coll) (iid : Option Nat) (st : Store) : Store :=
  match c with
  | Coll.categories => invStoreMixin Coll.categories iid st
  | Coll.products =>
    eraseK "product_discounted"
      (eraseK "product_featured" (invStoreMixin Coll.products iid st))

theorem invalidate_mixin_noFail_store (c : Coll) (iid : Option Nat) (s : St) :
    (CachingMixin.invalidate_related_caches noFail c iid s).2.store =
      invStoreMixin c iid s.store := by
  cases c <;> cases iid <;>
    simp [CachingMixin.invalidate_related_caches, invStoreMixin,
      cacheGet_noFail, cacheSet_noFail, cacheDelete_noFail, sweepDel_noFail,
      cache_base_key, registry_key, lookupVal_eraseK_ne]

theorem invalidate_mixin_noFail_fst (c : Coll) (iid : Option Nat) (s : St) :
    (CachingMixin.invalidate_related_caches noFail c iid s).1 = Except.ok () := by
  cases c <;> cases iid <;>
    simp [CachingMixin.invalidate_related_caches,
      cacheGet_noFail, cacheSet_noFail, cacheDelete_noFail, sweepDel_noFail,
      cache_base_key, registry_key]

theorem invalidate_mixin_noFail_db (c : Coll) (iid : Option Nat) (s : St) :
    (CachingMixin.invalidate_related_caches noFail c iid s).2.db = s.db := by
  cases c <;> cases iid <;>
    simp [CachingMixin.invalidate_related_caches,
      cacheGet_noFail, cacheSet_noFail, cacheDelete_noFail, sweepDel_noFail,
      cache_base_key, registry_key]

theorem invalidateFor_noFail_store (c : Coll) (iid : Option Nat) (s : St) :
    (invalidateFor noFail c iid s).2.store = invStore c iid s.store := by
  cases c with
  | categories =>
    simpa [invalidateFor, invStore] using
      invalidate_mixin_noFail_store Coll.categories iid s
  | products =>
    simp only [invalidateFor, ProductViewSet.invalidate_related_caches, invStore]
    rcases hmx : CachingMixin.invalidate_related_caches noFail Coll.products iid s
      with ⟨r, s1⟩
    have h1 : r = Except.ok () := by
      have := invalidate_mixin_noFail_fst Coll.products iid s
      rw [hmx] at this
      exact this
    have h2 : s1.store = invStoreMixin Coll.products iid s.store := by
      have := invalidate_mixin_noFail_store Coll.products iid s
      rw [hmx] at this
      exact this
    subst h1
    simp [cacheDelete_noFail, h2]

theorem invalidateFor_noFail_fst (c : Coll) (iid : Option Nat) (s : St) :
    (invalidateFor noFail c iid s).1 = Except.ok () := by
  cases c with
  | categories =>
    simpa [invalidateFor] using invalidate_mixin_noFail_fst Coll.categories iid s
  | products =>
    simp only [invalidateFor, ProductViewSet.invalidate_related_caches]
    rcases hmx : CachingMixin.invalidate_related_caches noFail Coll.products iid s
      with ⟨r, s1⟩
    have h1 : r = Except.ok () := by
      have := invalidate_mixin_noFail_fst Coll.products iid s
      rw [hmx] at this
      exact this
    subst h1
    simp [cacheDelete_noFail]

theorem invalidateFor_noFail_db (c : Coll) (iid : Option Nat) (s : St) :
    (invalidateFor noFail c iid s).2.db = s.db := by
  cases c with
  | categories =>
    simpa [invalidateFor] using invalidate_mixin_noFail_db Coll.categories iid s
  | products =>
    simp only [invalidateFor, ProductViewSet.invalidate_related_caches]
    rcases hmx : CachingMixin.invalidate_related_caches noFail Coll.products iid s
      with ⟨r, s1⟩
    have h1 : r = Except.ok () := by
      have := invalidate_mixin_noFail_fst Coll.products iid s
      rw [hmx] at this
      exact this
    have h2 : s1.db = s.db := by
      have := invalidate_mixin_noFail_db Coll.products iid s
      rw [hmx] at this
      exact this
    subst h1
    simp [cacheDelete_noFail, h2]

/-- The six constant cache keys of the engine: the two list keys, the two
registry keys, and the two derived-view keys. -/
def specialKeys : List String :=
  ["categories_list:", "products_list:", "categories_list_keys",
   "products_list_keys", "product_featured", "product_discounted"]

/-- The four prefixes detail cache keys are built from (two written by
`retrieve`, two deleted by `_invalidate_related_caches`). -/
def detailPrefixes : List String :=
  ["category_detail:", "product_detail:", "categories_detail:", "products_detail:"]

theorem detail_ne_special (p : String) (hp : p ∈ detailPrefixes)
    (b : String) (hb : b ∈ specialKeys) (x : String) : p ++ x ≠ b := by
  simp only [detailPrefixes, List.mem_cons, List.not_mem_nil, or_false] at hp
  simp only [specialKeys, List.mem_cons, List.not_mem_nil, or_false] at hb
  rcases hp with rfl | rfl | rfl | rfl <;>
    rcases hb with rfl | rfl | rfl | rfl | rfl | rfl <;>
      exact append_ne_of_not_prefix (by decide) x

theorem get_cache_key_detail_eq (c : Coll) (i : Nat) :
    get_cache_key_detail c i = (cache_base_key c ++ "_detail:") ++ toString i := by
  cases c <;> simp [get_cache_key_detail, cache_base_key, String.append_assoc]

example (i : Nat) : get_cache_key_detail Coll.products i ≠ registry_key Coll.products := by
  rw [get_cache_key_detail_eq]
  exact detail_ne_special _ (by decide) _ (by decide) (toString i)

theorem lookupVal_of_lookupK_none (st : Store) (k : String)
    (h : lookupK st k = none) : lookupVal st k = none := by
  simp [lookupVal, h]

theorem invStoreMixin_clean (c : Coll) (iid : Option Nat) (st : Store)
    (hreg : lookupK st (registry_key c) = none)
    (hdet : ∀ i, iid = some i → lookupK st (get_cache_key_detail c i) = none)
    (hder : cache_base_key c = "products" →
      lookupK st "product_featured" = none ∧
        lookupK st "product_discounted" = none) :
    invStoreMixin c iid st = st := by
  have hbranch : ∀ st2 : Store, st2 = st →
      (if cache_base_key c = "products" then
        eraseK "product_discounted" (eraseK "product_featured" st2)
      else st2) = st := by
    intro st2 h2
    subst h2
    cases c with
    | categories => rw [if_neg (by simp [cache_base_key])]
    | products =>
      rw [if_pos (by simp [cache_base_key])]
      rcases hder (by simp [cache_base_key]) with ⟨hf, hd⟩
      rw [eraseK_of_lookupK_none _ _ hf, eraseK_of_lookupK_none _ _ hd]
  cases iid with
  | none =>
    simp only [invStoreMixin]
    apply hbranch
    rw [lookupVal_of_lookupK_none st (registry_key c) hreg]
    simp only [regKeysOf, eraseList_nil]
    exact eraseK_of_lookupK_none _ _ hreg
  | some i =>
    have hd := hdet i rfl
    simp only [invStoreMixin]
    have he : eraseK (get_cache_key_detail c i)
        (eraseK (cache_base_key c ++ "_detail:" ++ toString i) st) = st := by
      have hee : (cache_base_key c ++ "_detail:" ++ toString i) =
          get_cache_key_detail c i := rfl
      rw [hee, eraseK_of_lookupK_none _ _ hd, eraseK_of_lookupK_none _ _ hd]
    rw [he]
    apply hbranch
    rw [lookupVal_of_lookupK_none st (registry_key c) hreg]
    simp only [regKeysOf, eraseList_nil]
    exact eraseK_of_lookupK_none _ _ hreg

theorem lookupK_invStoreMixin_reg (c : Coll) (iid : Option Nat) (st : Store) :
    lookupK (invStoreMixin c iid st) (registry_key c) = none := by
  cases c with
  | categories =>
    simp only [invStoreMixin]
    rw [if_neg (by simp [cache_base_key])]
    exact lookupK_eraseK_self _ _
  | products =>
    simp only [invStoreMixin]
    rw [if_pos (by simp [cache_base_key])]
    rw [lookupK_eraseK_ne _ _ _ (by decide), lookupK_eraseK_ne _ _ _ (by decide)]
    exact lookupK_eraseK_self _ _

theorem lookupK_invStoreMixin_det (c : Coll) (i : Nat) (st : Store) :
    lookupK (invStoreMixin c (some i) st) (get_cache_key_detail c i) = none := by
  have h1 : lookupK (eraseK (get_cache_key_detail c i)
      (eraseK (cache_base_key c ++ "_detail:" ++ toString i) st))
      (get_cache_key_detail c i) = none := lookupK_eraseK_self _ _
  have h2 := lookupK_eraseList_none
    (regKeysOf (lookupVal (eraseK (get_cache_key_detail c i)
      (eraseK (cache_base_key c ++ "_detail:" ++ toString i) st)) (registry_key c)))
    (get_cache_key_detail c i) _ h1
  have h3 := lookupK_eraseK_none _ (registry_key c) _ h2
  cases c with
  | categories =>
    simp only [invStoreMixin]
    rw [if_neg (by simp [cache_base_key])]
    exact h3
  | products =>
    simp only [invStoreMixin]
    rw [if_pos (by simp [cache_base_key])]
    exact lookupK_eraseK_none _ _ _ (lookupK_eraseK_none _ _ _ h3)

theorem lookupK_invStore_reg (c : Coll) (iid : Option Nat) (st : Store) :
    lookupK (invStore c iid st) (registry_key c) = none := by
  cases c with
  | categories => exact lookupK_invStoreMixin_reg Coll.categories iid st
  | products =>
    simp only [invStore]
    rw [lookupK_eraseK_ne _ _ _ (by decide), lookupK_eraseK_ne _ _ _ (by decide)]
    exact lookupK_invStoreMixin_reg Coll.products iid st

theorem lookupK_invStore_det (c : Coll) (i : Nat) (st : Store) :
    lookupK (invStore c (some i) st) (get_cache_key_detail c i) = none := by
  cases c with
  | categories => exact lookupK_invStoreMixin_det Coll.categories i st
  | products =>
    simp only [invStore]
    exact lookupK_eraseK_none _ _ _
      (lookupK_eraseK_none _ _ _ (lookupK_invStoreMixin_det Coll.products i st))

theorem lookupK_invStore_featured (iid : Option Nat) (st : Store) :
    lookupK (invStore Coll.products iid st) "product_featured" = none := by
  simp only [invStore]
  rw [lookupK_eraseK_ne _ _ _ (by decide)]
  exact lookupK_eraseK_self _ _

theorem lookupK_invStore_discounted (iid : Option Nat) (st : Store) :
    lookupK (invStore Coll.products iid st) "product_discounted" = none := by
  simp only [invStore]
  exact lookupK_eraseK_self _ _

theorem invStore_idem (c : Coll) (iid : Option Nat) (st : Store) :
    invStore c iid (invStore c iid st) = invStore c iid st := by
  have hclean : invStoreMixin c iid (invStore c iid st) = invStore c iid st := by
    apply invStoreMixin_clean
    · exact lookupK_invStore_reg c iid st
    · intro i hi
      subst hi
      exact lookupK_invStore_det c i st
    · intro hp
      cases c with
      | categories => simp [cache_base_key] at hp
      | products =>
        exact ⟨lookupK_invStore_featured iid st, lookupK_invStore_discounted iid st⟩
  cases c with
  | categories => exact hclean
  | products =>
    simp only [invStore]
    simp only [invStore] at hclean
    rw [hclean]
    have hf := lookupK_invStore_featured iid st
    simp only [invStore] at hf
    rw [eraseK_of_lookupK_none _ _ hf]
    have hd := lookupK_invStore_discounted iid st
    simp only [invStore] at hd
    rw [eraseK_of_lookupK_none _ _ hd]

/-- C7: invalidation is idempotent — under a failure-free store a second
run of `_invalidate_related_caches` (the registry now empty/cleared)
completes without error and leaves the cache store unchanged. -/
theorem c7_invalidate_idempotent (c : Coll) (iid : Option Nat) (s : St) :
    (invalidateFor noFail c iid s).1 = Except.ok () ∧
    (invalidateFor noFail c iid (invalidateFor noFail c iid s).2).1 =
      Except.ok () ∧
    (invalidateFor noFail c iid (invalidateFor noFail c iid s).2).2.store =
      (invalidateFor noFail c iid s).2.store := by
  refine ⟨invalidateFor_noFail_fst c iid s, invalidateFor_noFail_fst c iid _, ?_⟩
  rw [invalidateFor_noFail_store c iid ((invalidateFor noFail c iid s).2),
    invalidateFor_noFail_store c iid s]
  exact invStore_idem c iid s.store

/-- Sample category row used in concrete runs. -/
def electronics : Entity :=
  { eid := 7, name := "Electronics", slug := "electronics", price := 0,
    discountPrice := none, stock := 0, featured := true, isActive := true,
    catSlug := "" }

/-- Sample product with a dependent order item. -/
def laptop : Entity :=
  { eid := 1, name := "Laptop", slug := "laptop", price := 1200,
    discountPrice := none, stock := 10, featured := true, isActive := true,
    catSlug := "electronics" }

/-- Sample product without dependent order items. -/
def keyboard : Entity :=
  { eid := 2, name := "Keyboard", slug := "keyboard", price := 150,
    discountPrice := some 100, stock := 5, featured := false, isActive := true,
    catSlug := "electronics" }

/-- Sample database: one category, two products, one order item on the
laptop. -/
def sampleDb : Db :=
  { cats := [electronics], prods := [laptop, keyboard], orderItems := [1] }

/-- A database whose product collection is empty. -/
def emptyProdDb : Db :=
  { cats := [electronics], prods := [], orderItems := [] }

/-- C2 counterexample: the engine's list cache write for the product
collection lands on the key `products_list:` (plural base), not on the
`product_list:` key the claim derives from `collection = product`. -/
theorem c2_counterexample :
    (lookupVal (CachingMixin.list noFail Coll.products emptyQuery
        (initSt sampleDb)).2.store "products_list:").isSome = true ∧
    lookupVal (CachingMixin.list noFail Coll.products emptyQuery
        (initSt sampleDb)).2.store "product_list:" = none := by
  decide

/-- C2 amended: the concrete key namespace the code uses — list and
registry keys are derived from the plural `cache_base_key` values
(`categories`, `products`), the detail keys read and written by `retrieve`
use the singular collection name, and the detail keys deleted by
invalidation use the plural base, so the namespaces differ. -/
theorem c2_actual_key_namespace :
    get_cache_key_list Coll.categories emptyQuery = some "categories_list:" ∧
    get_cache_key_list Coll.products emptyQuery = some "products_list:" ∧
    registry_key Coll.categories = "categories_list_keys" ∧
    registry_key Coll.products = "products_list_keys" ∧
    (∀ i : Nat,
      retrieve_cache_key Coll.categories i = "category_detail:" ++ toString i) ∧
    (∀ i : Nat,
      retrieve_cache_key Coll.products i = "product_detail:" ++ toString i) ∧
    (∀ i : Nat,
      get_cache_key_detail Coll.categories i = "categories_detail:" ++ toString i) ∧
    (∀ i : Nat,
      get_cache_key_detail Coll.products i = "products_detail:" ++ toString i) := by
  refine ⟨by decide, by decide, by decide, by decide, ?_, ?_, ?_, ?_⟩
  · intro i
    simp [retrieve_cache_key, cache_base_key]
  · intro i
    simp [retrieve_cache_key, cache_base_key]
  · intro i
    rw [get_cache_key_detail_eq]
    rfl
  · intro i
    rw [get_cache_key_detail_eq]
    rfl

/-- C3: when any of search / ordering / category-slug is non-empty the
list endpoint performs no cache-store operation at all — the result is the
underlying query's result, the store is untouched, and the log gains only
the underlying-query event. -/
theorem isEmpty_false_of_ne (x : String) (h : x ≠ "") : x.isEmpty = false := by
  cases hx : x.isEmpty
  · rfl
  · exact absurd ((String.isEmpty_iff _).mp hx) h

theorem c3_bypass_no_cache_io (env : Env) (c : Coll) (q : Query) (s : St)
    (h : q.search ≠ "" ∨ q.ordering ≠ "" ∨ q.categorySlug ≠ "") :
    CachingMixin.list env c q s =
      (Except.ok (underlyingList c s.db q), pushEv s (Ev.dbq c)) ∧
    (CachingMixin.list env c q s).2.store = s.store ∧
    (CachingMixin.list env c q s).2.log = s.log ++ [Ev.dbq c] := by
  have hc : (!q.search.isEmpty || !q.ordering.isEmpty ||
      !q.categorySlug.isEmpty) = true := by
    rcases h with h1 | h1 | h1
    · simp [isEmpty_false_of_ne _ h1]
    · simp [isEmpty_false_of_ne _ h1]
    · simp [isEmpty_false_of_ne _ h1]
  have hk : get_cache_key_list c q = none := by
    simp [get_cache_key_list, hc]
  have hmain : CachingMixin.list env c q s =
      (Except.ok (underlyingList c s.db q), pushEv s (Ev.dbq c)) := by
    simp only [CachingMixin.list, hk]
    rfl
  exact ⟨hmain, by rw [hmain]; rfl, by rw [hmain]; rfl⟩

/-- Witness for C3 at a concrete search request on the sample database. -/
theorem c3_bypass_no_cache_io_witness :
    CachingMixin.list noFail Coll.products
        { search := "Laptop", ordering := "", categorySlug := "" }
        (initSt sampleDb) =
      (Except.ok (underlyingList Coll.products sampleDb
          { search := "Laptop", ordering := "", categorySlug := "" }),
        pushEv (initSt sampleDb) (Ev.dbq Coll.products)) :=
  (c3_bypass_no_cache_io noFail Coll.products
    { search := "Laptop", ordering := "", categorySlug := "" }
    (initSt sampleDb) (Or.inl (by decide))).1

/-- Decidable equality for request results, used by concrete evaluations. -/
instance {e a : Type} [DecidableEq e] [DecidableEq a] : DecidableEq (Except e a) :=
  fun x y =>
    match x, y with
    | Except.ok u, Except.ok v =>
      if h : u = v then Decidable.isTrue (by rw [h])
      else Decidable.isFalse (by intro hx; cases hx; exact h rfl)
    | Except.ok _, Except.error _ => Decidable.isFalse (by intro hx; cases hx)
    | Except.error _, Except.ok _ => Decidable.isFalse (by intro hx; cases hx)
    | Except.error u, Except.error v =>
      if h : u = v then Decidable.isTrue (by rw [h])
      else Decidable.isFalse (by intro hx; cases hx; exact h rfl)

/-- The laptop after an update (new name and price). -/
def laptopUpdated : Entity :=
  { laptop with name := "Laptop Max", price := 1500 }

/-- State after `retrieve` has populated the product detail cache for id 1. -/
def c1sPopulated : St :=
  (CachingMixin.retrieve noFail Coll.products 1 (initSt sampleDb)).2

/-- State after `perform_update` of product 1 ran its invalidation sweep. -/
def c1sAfterUpdate : St :=
  (CachingMixin.perform_update noFail Coll.products laptopUpdated c1sPopulated).2

/-- C1 (code bug): `retrieve` caches product 1 under `product_detail:1`
but the invalidation sweep of `perform_update` deletes `products_detail:1`
(the plural `get_cache_key_detail` key), so the subsequent `retrieve` is a
cache HIT on the stale pre-update value even though the underlying store
already holds the updated row. -/
theorem c1_stale_detail_after_update :
    (CachingMixin.retrieve noFail Coll.products 1 c1sAfterUpdate).1 =
      Except.ok (PyVal.pyDetailData (serializeEntity laptop)) ∧
    queryById Coll.products c1sAfterUpdate.db 1 = some laptopUpdated ∧
    serializeEntity laptop ≠ serializeEntity laptopUpdated ∧
    lookupVal c1sAfterUpdate.store "product_detail:1" =
      some (PyVal.pyDetailData (serializeEntity laptop)) := by
  decide

/-- Environment in which only the read of the product list key fails. -/
def failGetListEnv : Env :=
  { failGet := fun k => k == "products_list:",
    failSet := fun _ => false, failDel := fun _ => false }

/-- Environment in which every cache write fails. -/
def failAllSetEnv : Env :=
  { failGet := fun _ => false,
    failSet := fun _ => true, failDel := fun _ => false }

/-- C4 counterexample: a failing `cache.get` at the top of `list` is NOT
caught — the request surfaces the cache-store failure instead of
proceeding against the database. -/
theorem c4_counterexample :
    (CachingMixin.list failGetListEnv Coll.products emptyQuery
        (initSt sampleDb)).1 =
      Except.error (EErr.cacheFail "products_list:") := by
  decide

theorem listMiss_fst (env : Env) (c : Coll) (q : Query) (ck : String) (s : St) :
    (listMiss env c q ck s).1 = Except.ok (underlyingList c s.db q) := by
  simp only [listMiss]
  split
  · rfl
  · split
    · rfl
    · split
      · rfl
      · split
        · rfl
        · rfl

theorem retrieveMiss_not_cacheFail (env : Env) (c : Coll) (i : Nat)
    (ck : String) (s : St) (k : String) :
    (retrieveMiss env c i ck s).1 ≠ Except.error (EErr.cacheFail k) := by
  simp only [retrieveMiss]
  split
  · simp
  · simp

theorem cacheGet_ok (env : Env) (k : String) (s : St)
    (h : env.failGet k = false) :
    cacheGet env k s =
      (Except.ok (lookupVal s.store k), pushEv s (Ev.cget k)) := by
  simp [cacheGet, h, pushEv]

/-- C4 amended: a failing cache write (value, registry, or detail write)
is caught and the freshly computed result is still returned, and no
cache-store failure other than the initial raw `cache.get` can surface;
the initial read failure, however, does propagate (see the
counterexample), so reads are not treated as misses. -/
theorem c4_write_failures_swallowed (env : Env) (c : Coll) (q : Query)
    (ck : String) (i : Nat) (s : St) :
    (get_cache_key_list c q = some ck → env.failGet ck = false →
      (∀ k, (CachingMixin.list env c q s).1 ≠ Except.error (EErr.cacheFail k)) ∧
      (lookupVal s.store ck = none →
        (CachingMixin.list env c q s).1 =
          Except.ok (underlyingList c s.db q))) ∧
    (env.failGet (retrieve_cache_key c i) = false →
      ∀ k, (CachingMixin.retrieve env c i s).1 ≠ Except.error (EErr.cacheFail k)) := by
  constructor
  · intro hck hget
    have hl : CachingMixin.list env c q s =
        (if truthy ((lookupVal s.store ck).getD PyVal.pyNone) then
          (Except.ok ((lookupVal s.store ck).getD PyVal.pyNone),
            pushEv s (Ev.cget ck))
        else listMiss env c q ck (pushEv s (Ev.cget ck))) := by
      simp only [CachingMixin.list, hck, cacheGet_ok env ck s hget]
    constructor
    · intro k
      rw [hl]
      by_cases ht : truthy ((lookupVal s.store ck).getD PyVal.pyNone)
      · simp [ht]
      · rw [if_neg ht, listMiss_fst]
        simp
    · intro hnone
      rw [hl, hnone]
      rw [if_neg (by decide), listMiss_fst]
      rfl
  · intro hget k
    simp only [CachingMixin.retrieve, cacheGet_ok env (retrieve_cache_key c i) s hget]
    by_cases ht : truthy ((lookupVal s.store (retrieve_cache_key c i)).getD PyVal.pyNone)
    · simp [ht]
    · rw [if_neg ht]
      exact retrieveMiss_not_cacheFail env c i (retrieve_cache_key c i)
        (pushEv s (Ev.cget (retrieve_cache_key c i))) k

/-- Witness for C4: with every cache write failing, the product list
request still returns the freshly computed data. -/
theorem c4_write_failures_swallowed_witness :
    (CachingMixin.list failAllSetEnv Coll.products emptyQuery
        (initSt sampleDb)).1 =
      Except.ok (underlyingList Coll.products sampleDb emptyQuery) :=
  ((c4_write_failures_swallowed failAllSetEnv Coll.products emptyQuery
      "products_list:" 0 (initSt sampleDb)).1 (by decide) (by decide)).2 (by decide)

/-- Environment in which only the delete of the product list key fails. -/
def failDelListEnv : Env :=
  { failGet := fun _ => false, failSet := fun _ => false,
    failDel := fun k => k == "products_list:" }

/-- State with a populated product list cache and key registry. -/
def c5sPopulated : St :=
  (CachingMixin.list noFail Coll.products emptyQuery (initSt sampleDb)).2

/-- C5 counterexample: when the sweep's delete of the registered key
`products_list:` fails, the sweep does NOT continue — the exception
propagates out of the invalidation routine and the registry entry
`products_list_keys` is still present afterwards. -/
theorem c5_counterexample :
    (invalidateFor failDelListEnv Coll.products none c5sPopulated).1 =
      Except.error (EErr.cacheFail "products_list:") ∧
    lookupVal (invalidateFor failDelListEnv Coll.products none
        c5sPopulated).2.store "products_list_keys" =
      some (PyVal.pyKeys ["products_list:"]) := by
  decide

/-- C5 amended: a failing store delete during the sweep aborts the sweep:
the error propagates to the caller, and neither the remaining registered
keys nor the registry entry are deleted — the whole cache store is left as
it was. -/
theorem c5_sweep_failure_aborts (env : Env) (c : Coll) (s : St)
    (k : String) (rest : List String)
    (hreg : lookupVal s.store (registry_key c) =
      some (PyVal.pyKeys (k :: rest)))
    (hget : env.failGet (registry_key c) = false)
    (hfail : env.failDel k = true) :
    (CachingMixin.invalidate_related_caches env c none s).1 =
      Except.error (EErr.cacheFail k) ∧
    (CachingMixin.invalidate_related_caches env c none s).2.store = s.store := by
  constructor
  · simp [CachingMixin.invalidate_related_caches,
      cacheGet_ok env (registry_key c) s hget, hreg, regKeysOf, sweepDel,
      cacheDelete, hfail, pushEv]
  · simp [CachingMixin.invalidate_related_caches,
      cacheGet_ok env (registry_key c) s hget, hreg, regKeysOf, sweepDel,
      cacheDelete, hfail, pushEv]

/-- Witness for C5 at the concrete failing-delete environment. -/
theorem c5_sweep_failure_aborts_witness :
    (CachingMixin.invalidate_related_caches failDelListEnv Coll.products none
        c5sPopulated).1 = Except.error (EErr.cacheFail "products_list:") :=
  (c5_sweep_failure_aborts failDelListEnv Coll.products c5sPopulated
    "products_list:" [] (by decide) (by decide) (by decide)).1

/-- C6: deleting an entity with dependent order items is refused with a
structured client-visible error and changes nothing (no store write, no
cache mutation, not even a log event); deleting an entity without
dependents succeeds, removes the row, and runs exactly the same cache
invalidation an update of that entity runs. -/
theorem c6_delete_precondition (env : Env) (c : Coll) (inst : Entity)
    (s : St) (e2 : Entity) :
    (destroyBlocked c inst s.db = true →
      CachingMixin.perform_destroy env c inst s =
        (Except.error (EErr.validationError ("Cannot delete " ++ inst.name)),
          s)) ∧
    (destroyBlocked c inst s.db = false → e2.eid = inst.eid →
      (CachingMixin.perform_destroy noFail c inst s).1 = Except.ok () ∧
      (CachingMixin.perform_destroy noFail c inst s).2.db =
        dbDestroy c inst s.db ∧
      (CachingMixin.perform_destroy noFail c inst s).2.store =
        (CachingMixin.perform_update noFail c e2 s).2.store) := by
  constructor
  · intro hb
    simp [CachingMixin.perform_destroy, hb]
  · intro hb he2
    have hd : CachingMixin.perform_destroy noFail c inst s =
        invalidateFor noFail c (some inst.eid)
          { s with db := dbDestroy c inst s.db } := by
      simp [CachingMixin.perform_destroy, hb]
    refine ⟨?_, ?_, ?_⟩
    · rw [hd]
      exact invalidateFor_noFail_fst c (some inst.eid) _
    · rw [hd, invalidateFor_noFail_db]
    · rw [hd, invalidateFor_noFail_store]
      simp only [CachingMixin.perform_update]
      rw [invalidateFor_noFail_store, he2]

/-- Witness for C6: the laptop (order item attached) is refused, the
keyboard (no order items) is deleted. -/
theorem c6_delete_precondition_witness :
    CachingMixin.perform_destroy noFail Coll.products laptop
        (initSt sampleDb) =
      (Except.error (EErr.validationError ("Cannot delete " ++ laptop.name)),
        initSt sampleDb) ∧
    (CachingMixin.perform_destroy noFail Coll.products keyboard
        (initSt sampleDb)).1 = Except.ok () :=
  ⟨(c6_delete_precondition noFail Coll.products laptop (initSt sampleDb)
      laptop).1 (by decide),
    ((c6_delete_precondition noFail Coll.products keyboard (initSt sampleDb)
      keyboard).2 (by decide) rfl).1⟩

theorem gckd_ne_special (c : Coll) (i : Nat) (b : String)
    (hb : b ∈ specialKeys) : get_cache_key_detail c i ≠ b := by
  rw [get_cache_key_detail_eq]
  cases c
  · exact detail_ne_special _ (by decide) b hb (toString i)
  · exact detail_ne_special _ (by decide) b hb (toString i)

theorem rck_ne_special (c : Coll) (i : Nat) (b : String)
    (hb : b ∈ specialKeys) : retrieve_cache_key c i ≠ b := by
  cases c
  · have hr : retrieve_cache_key Coll.categories i =
        "category_detail:" ++ toString i := by
      simp [retrieve_cache_key, cache_base_key]
    rw [hr]
    exact detail_ne_special _ (by decide) b hb (toString i)
  · have hr : retrieve_cache_key Coll.products i =
        "product_detail:" ++ toString i := by
      simp [retrieve_cache_key, cache_base_key]
    rw [hr]
    exact detail_ne_special _ (by decide) b hb (toString i)

theorem lookupVal_eraseList_not_mem (ks : List String) (k : String)
    (st : Store) (h : k ∉ ks) :
    lookupVal (eraseList ks st) k = lookupVal st k := by
  simp [lookupVal, lookupK_eraseList_not_mem ks k st h]

/-- Registry invariant for one collection: the registry entry, when
present, is exactly the singleton list holding the collection's constant
list key and is stored without expiry; and whenever the list key itself is
cached the registry entry is present. -/
def RegOK (st : Store) (c : Coll) : Prop :=
  (lookupK st (registry_key c) = none ∨
    lookupK st (registry_key c) =
      some (PyVal.pyKeys [cache_base_key c ++ "_list:"], none)) ∧
  (∀ v, lookupVal st (cache_base_key c ++ "_list:") = some v →
    lookupK st (registry_key c) =
      some (PyVal.pyKeys [cache_base_key c ++ "_list:"], none))

theorem lookupVal_invStoreMixin_cat (iid : Option Nat) (st : Store)
    (k : String) (hinv : RegOK st Coll.categories)
    (hk1 : k ≠ registry_key Coll.categories)
    (hk2 : ∀ i, k ≠ get_cache_key_detail Coll.categories i)
    (hk3 : k ≠ "categories_list:") :
    lookupVal (invStoreMixin Coll.categories iid st) k = lookupVal st k := by
  simp only [invStoreMixin]
  rw [if_neg (by simp [cache_base_key])]
  have hst1 : ∀ j : String,
      (j = registry_key Coll.categories ∨ j = k) →
      lookupVal (match iid with
        | none => st
        | some i => eraseK (get_cache_key_detail Coll.categories i)
            (eraseK (cache_base_key Coll.categories ++ "_detail:" ++
              toString i) st)) j = lookupVal st j := by
    intro j hj
    cases iid with
    | none => rfl
    | some i =>
      have hjd : j ≠ get_cache_key_detail Coll.categories i := by
        rcases hj with rfl | rfl
        · exact Ne.symm (gckd_ne_special Coll.categories i _ (by decide))
        · exact hk2 i
      show lookupVal (eraseK (get_cache_key_detail Coll.categories i)
        (eraseK (get_cache_key_detail Coll.categories i) st)) j = lookupVal st j
      rw [lookupVal_eraseK_ne _ _ _ hjd, lookupVal_eraseK_ne _ _ _ hjd]
  rw [lookupVal_eraseK_ne _ _ _ hk1]
  rw [hst1 (registry_key Coll.categories) (Or.inl rfl)]
  rcases hinv.1 with hreg | hreg
  · have hv : lookupVal st (registry_key Coll.categories) = none := by
      simp [lookupVal, hreg]
    rw [hv]
    simp only [regKeysOf, eraseList_nil]
    exact hst1 k (Or.inr rfl)
  · have hv : lookupVal st (registry_key Coll.categories) =
        some (PyVal.pyKeys [cache_base_key Coll.categories ++ "_list:"]) := by
      simp [lookupVal, hreg]
    rw [hv]
    simp only [regKeysOf]
    rw [lookupVal_eraseList_not_mem _ _ _ (by
      intro hmem
      rcases List.mem_singleton.mp hmem with rfl
      exact hk3 rfl)]
    exact hst1 k (Or.inr rfl)

theorem lookupVal_invStore_cat (iid : Option Nat) (st : Store) (k : String)
    (hinv : RegOK st Coll.categories)
    (hk1 : k ≠ registry_key Coll.categories)
    (hk2 : ∀ i, k ≠ get_cache_key_detail Coll.categories i)
    (hk3 : k ≠ "categories_list:") :
    lookupVal (invStore Coll.categories iid st) k = lookupVal st k :=
  lookupVal_invStoreMixin_cat iid st k hinv hk1 hk2 hk3

/-- C8: every product mutation (create, update, successful destroy),
whatever fields it touches, leaves both derived-view keys absent from the
cache; category mutations leave the two derived-view entries exactly as
they were (given the registry invariant for the category collection). -/
theorem c8_derived_view_invalidation (s : St) (e : Entity) (inst : Entity) :
    (lookupVal (CachingMixin.perform_create noFail Coll.products e s).2.store
        "product_featured" = none ∧
      lookupVal (CachingMixin.perform_create noFail Coll.products e s).2.store
        "product_discounted" = none ∧
      lookupVal (CachingMixin.perform_update noFail Coll.products e s).2.store
        "product_featured" = none ∧
      lookupVal (CachingMixin.perform_update noFail Coll.products e s).2.store
        "product_discounted" = none ∧
      (destroyBlocked Coll.products inst s.db = false →
        lookupVal (CachingMixin.perform_destroy noFail Coll.products inst
            s).2.store "product_featured" = none ∧
        lookupVal (CachingMixin.perform_destroy noFail Coll.products inst
            s).2.store "product_discounted" = none)) ∧
    (RegOK s.store Coll.categories →
      lookupVal (CachingMixin.perform_create noFail Coll.categories e s).2.store
          "product_featured" = lookupVal s.store "product_featured" ∧
      lookupVal (CachingMixin.perform_create noFail Coll.categories e s).2.store
          "product_discounted" = lookupVal s.store "product_discounted" ∧
      lookupVal (CachingMixin.perform_update noFail Coll.categories e s).2.store
          "product_featured" = lookupVal s.store "product_featured" ∧
      lookupVal (CachingMixin.perform_update noFail Coll.categories e s).2.store
          "product_discounted" = lookupVal s.store "product_discounted" ∧
      (destroyBlocked Coll.categories inst s.db = false →
        lookupVal (CachingMixin.perform_destroy noFail Coll.categories inst
            s).2.store "product_featured" = lookupVal s.store "product_featured" ∧
        lookupVal (CachingMixin.perform_destroy noFail Coll.categories inst
            s).2.store "product_discounted" =
          lookupVal s.store "product_discounted")) := by
  have hfeat : ∀ iid st, lookupVal (invStore Coll.products iid st)
      "product_featured" = none := by
    intro iid st
    exact lookupVal_of_lookupK_none _ _ (lookupK_invStore_featured iid st)
  have hdisc : ∀ iid st, lookupVal (invStore Coll.products iid st)
      "product_discounted" = none := by
    intro iid st
    exact lookupVal_of_lookupK_none _ _ (lookupK_invStore_discounted iid st)
  constructor
  · refine ⟨?_, ?_, ?_, ?_, ?_⟩
    · simp only [CachingMixin.perform_create, invalidateFor_noFail_store]
      exact hfeat none s.store
    · simp only [CachingMixin.perform_create, invalidateFor_noFail_store]
      exact hdisc none s.store
    · simp only [CachingMixin.perform_update, invalidateFor_noFail_store]
      exact hfeat (some e.eid) s.store
    · simp only [CachingMixin.perform_update, invalidateFor_noFail_store]
      exact hdisc (some e.eid) s.store
    · intro hb
      have hd : CachingMixin.perform_destroy noFail Coll.products inst s =
          invalidateFor noFail Coll.products (some inst.eid)
            { s with db := dbDestroy Coll.products inst s.db } := by
        simp [CachingMixin.perform_destroy, hb]
      rw [hd, invalidateFor_noFail_store]
      exact ⟨hfeat (some inst.eid) s.store, hdisc (some inst.eid) s.store⟩
  · intro hinv
    have hcat : ∀ iid k, k ≠ registry_key Coll.categories →
        (∀ i, k ≠ get_cache_key_detail Coll.categories i) →
        k ≠ "categories_list:" →
        lookupVal (invStore Coll.categories iid s.store) k =
          lookupVal s.store k := by
      intro iid k h1 h2 h3
      exact lookupVal_invStore_cat iid s.store k hinv h1 h2 h3
    refine ⟨?_, ?_, ?_, ?_, ?_⟩
    · simp only [CachingMixin.perform_create, invalidateFor_noFail_store]
      exact hcat none "product_featured" (by decide)
        (fun i => Ne.symm (gckd_ne_special Coll.categories i _ (by decide)))
        (by decide)
    · simp only [CachingMixin.perform_create, invalidateFor_noFail_store]
      exact hcat none "product_discounted" (by decide)
        (fun i => Ne.symm (gckd_ne_special Coll.categories i _ (by decide)))
        (by decide)
    · simp only [CachingMixin.perform_update, invalidateFor_noFail_store]
      exact hcat (some e.eid) "product_featured" (by decide)
        (fun i => Ne.symm (gckd_ne_special Coll.categories i _ (by decide)))
        (by decide)
    · simp only [CachingMixin.perform_update, invalidateFor_noFail_store]
      exact hcat (some e.eid) "product_discounted" (by decide)
        (fun i => Ne.symm (gckd_ne_special Coll.categories i _ (by decide)))
        (by decide)
    · intro hb
      have hd : CachingMixin.perform_destroy noFail Coll.categories inst s =
          invalidateFor noFail Coll.categories (some inst.eid)
            { s with db := dbDestroy Coll.categories inst s.db } := by
        simp [CachingMixin.perform_destroy, hb]
      rw [hd, invalidateFor_noFail_store]
      exact ⟨hcat (some inst.eid) "product_featured" (by decide)
          (fun i => Ne.symm (gckd_ne_special Coll.categories i _ (by decide)))
          (by decide),
        hcat (some inst.eid) "product_discounted" (by decide)
          (fun i => Ne.symm (gckd_ne_special Coll.categories i _ (by decide)))
          (by decide)⟩

/-- Witness for C8: a concrete update of the keyboard's stock (a field
unrelated to featured/discount) clears both derived-view entries. -/
theorem c8_derived_view_invalidation_witness :
    lookupVal (CachingMixin.perform_update noFail Coll.products
        { keyboard with stock := 99 } c5sPopulated).2.store
      "product_featured" = none :=
  ((c8_derived_view_invalidation c5sPopulated
    { keyboard with stock := 99 } keyboard).1).2.2.1

theorem underlyingList_ne_pyNone (c : Coll) (db : Db) (q : Query) :
    underlyingList c db q ≠ PyVal.pyNone := by
  simp [underlyingList]

theorem get_cache_key_list_some (c : Coll) (q : Query) (ck : String)
    (h : get_cache_key_list c q = some ck) :
    ck = cache_base_key c ++ "_list:" := by
  simp only [get_cache_key_list] at h
  split at h
  · cases h
  · exact (Option.some.injEq _ _ ▸ h).symm

/-- C10: a falsy cached value (in particular the serialized empty list of
an empty collection) is never served: the hit test is truthiness, so the
request re-executes the underlying query and re-writes the cache entry,
both for `list` and for `retrieve`. -/
theorem c10_falsy_cached_value_not_served (c : Coll) (s : St) :
    (∀ q ck v, get_cache_key_list c q = some ck →
      lookupVal s.store ck = some v → truthy v = false →
      (CachingMixin.list noFail c q s).1 =
        Except.ok (underlyingList c s.db q) ∧
      lookupK (CachingMixin.list noFail c q s).2.store ck =
        some (underlyingList c s.db q, some CACHE_TTL) ∧
      ∃ rest, (CachingMixin.list noFail c q s).2.log =
        s.log ++ [Ev.cget ck, Ev.dbq c] ++ rest) ∧
    (∀ i v e, lookupVal s.store (retrieve_cache_key c i) = some v →
      truthy v = false → queryById c s.db i = some e →
      (CachingMixin.retrieve noFail c i s).1 =
        Except.ok (PyVal.pyDetailData (serializeEntity e)) ∧
      lookupK (CachingMixin.retrieve noFail c i s).2.store
          (retrieve_cache_key c i) =
        some (PyVal.pyDetailData (serializeEntity e), some CACHE_TTL) ∧
      ∃ rest, (CachingMixin.retrieve noFail c i s).2.log =
        s.log ++ [Ev.cget (retrieve_cache_key c i), Ev.dbg c i] ++ rest) := by
  constructor
  · intro q ck v hk hv hf
    have hckval : ck = cache_base_key c ++ "_list:" :=
      get_cache_key_list_some c q ck hk
    have hckrk : ck ≠ registry_key c := by
      rw [hckval]
      cases c <;> decide
    have hlist : CachingMixin.list noFail c q s =
        listMiss noFail c q ck (pushEv s (Ev.cget ck)) := by
      simp only [CachingMixin.list, hk, cacheGet_noFail, hv, Option.getD_some]
      rw [hf, if_neg (by decide)]
      rfl
    rw [hlist]
    simp only [listMiss, cacheSet_noFail, cacheGet_noFail]
    rw [if_neg (by exact underlyingList_ne_pyNone c _ q)]
    by_cases hcont : (regKeysOf (lookupVal
        (setK ck (underlyingList c s.db q) (some CACHE_TTL) s.store)
        (registry_key c))).contains ck
    · rw [if_pos ?hcp]
      case hcp =>
        convert hcont using 4
      refine ⟨rfl, ?_, ?_⟩
      · exact lookupK_setK_self _ _ _ _
      · exact ⟨[Ev.cset ck (some CACHE_TTL), Ev.cget (registry_key c)],
          by simp [pushEv]⟩
    · rw [if_neg ?hcn]
      case hcn =>
        intro hx
        apply hcont
        convert hx using 4
      simp only [cacheSet_noFail]
      refine ⟨rfl, ?_, ?_⟩
      · rw [lookupK_setK_ne _ _ _ _ _ hckrk]
        exact lookupK_setK_self _ _ _ _
      · exact ⟨[Ev.cset ck (some CACHE_TTL), Ev.cget (registry_key c),
          Ev.cset (registry_key c) none], by simp [pushEv]⟩
  · intro i v e hv hf hq
    have hret : CachingMixin.retrieve noFail c i s =
        retrieveMiss noFail c i (retrieve_cache_key c i)
          (pushEv s (Ev.cget (retrieve_cache_key c i))) := by
      simp only [CachingMixin.retrieve, cacheGet_noFail, hv, Option.getD_some]
      rw [hf, if_neg (by decide)]
      rfl
    rw [hret]
    simp only [retrieveMiss]
    have hq2 : queryById c (pushEv (pushEv s
        (Ev.cget (retrieve_cache_key c i))) (Ev.dbg c i)).db i = some e := hq
    simp only [hq2, cacheSet_noFail]
    refine ⟨by trivial, ?_, ?_⟩
    · exact lookupK_setK_self _ _ _ _
    · exact ⟨[Ev.cset (retrieve_cache_key c i) (some CACHE_TTL)],
        by simp [pushEv]⟩

/-- State after a populating list call on an empty product collection:
the cache now holds the falsy serialized empty list. -/
def c10sEmptyListCached : St :=
  (CachingMixin.list noFail Coll.products emptyQuery (initSt emptyProdDb)).2

/-- Witness for C10: immediately after the populating call on an empty
collection, the next `list` call still re-executes the underlying query
instead of serving the cached empty list. -/
theorem c10_falsy_cached_value_not_served_witness :
    (CachingMixin.list noFail Coll.products emptyQuery c10sEmptyListCached).1 =
      Except.ok (underlyingList Coll.products c10sEmptyListCached.db
        emptyQuery) :=
  ((c10_falsy_cached_value_not_served Coll.products c10sEmptyListCached).1
    emptyQuery "products_list:" (PyVal.pyListData []) (by decide) (by decide)
    (by decide)).1

theorem lookupK_eraseList_sub (ks : List String) (k : String) (st : Store)
    (h : k ∉ ks) :
    lookupK (eraseList ks st) k = lookupK st k :=
  lookupK_eraseList_not_mem ks k st h

theorem lookupK_sweep_tail (c : Coll) (st1 : Store) (k : String)
    (hreg1 : lookupK st1 (registry_key c) = none ∨
      lookupK st1 (registry_key c) =
        some (PyVal.pyKeys [cache_base_key c ++ "_list:"], none))
    (hk1 : k ≠ registry_key c)
    (hk3 : k ≠ cache_base_key c ++ "_list:")
    (hk4 : k ≠ "product_featured") (hk5 : k ≠ "product_discounted") :
    lookupK (if cache_base_key c = "products" then
        eraseK "product_discounted" (eraseK "product_featured"
          (eraseK (registry_key c)
            (eraseList (regKeysOf (lookupVal st1 (registry_key c))) st1)))
      else eraseK (registry_key c)
        (eraseList (regKeysOf (lookupVal st1 (registry_key c))) st1)) k =
      lookupK st1 k := by
  have hmain : lookupK (eraseK (registry_key c)
      (eraseList (regKeysOf (lookupVal st1 (registry_key c))) st1)) k =
      lookupK st1 k := by
    rw [lookupK_eraseK_ne _ _ _ hk1]
    rcases hreg1 with hreg | hreg
    · have hv : lookupVal st1 (registry_key c) = none := by
        simp [lookupVal, hreg]
      rw [hv]
      rfl
    · have hv : lookupVal st1 (registry_key c) =
          some (PyVal.pyKeys [cache_base_key c ++ "_list:"]) := by
        simp [lookupVal, hreg]
      rw [hv]
      simp only [regKeysOf]
      exact lookupK_eraseList_sub _ _ _ (by
        intro hmem
        rcases List.mem_singleton.mp hmem with rfl
        exact hk3 rfl)
  cases c with
  | categories =>
    rw [if_neg (by simp [cache_base_key])]
    exact hmain
  | products =>
    rw [if_pos (by simp [cache_base_key])]
    rw [lookupK_eraseK_ne _ _ _ hk5, lookupK_eraseK_ne _ _ _ hk4]
    exact hmain

theorem lookupK_invStoreMixin_other (c : Coll) (iid : Option Nat)
    (st : Store) (k : String) (hinv : RegOK st c)
    (hk1 : k ≠ registry_key c)
    (hk2 : ∀ i, k ≠ get_cache_key_detail c i)
    (hk3 : k ≠ cache_base_key c ++ "_list:")
    (hk4 : k ≠ "product_featured")
    (hk5 : k ≠ "product_discounted") :
    lookupK (invStoreMixin c iid st) k = lookupK st k := by
  cases iid with
  | none =>
    simp only [invStoreMixin]
    exact lookupK_sweep_tail c st k hinv.1 hk1 hk3 hk4 hk5
  | some i =>
    have hdrk : registry_key c ≠ get_cache_key_detail c i :=
      Ne.symm (gckd_ne_special c i _ (by cases c <;> decide))
    have hst1reg : lookupK (eraseK (get_cache_key_detail c i)
        (eraseK (get_cache_key_detail c i) st)) (registry_key c) =
        lookupK st (registry_key c) := by
      rw [lookupK_eraseK_ne _ _ _ hdrk, lookupK_eraseK_ne _ _ _ hdrk]
    have htail := lookupK_sweep_tail c
      (eraseK (get_cache_key_detail c i) (eraseK (get_cache_key_detail c i) st))
      k (by rw [hst1reg]; exact hinv.1) hk1 hk3 hk4 hk5
    have hfin : lookupK (eraseK (get_cache_key_detail c i)
        (eraseK (get_cache_key_detail c i) st)) k = lookupK st k := by
      rw [lookupK_eraseK_ne _ _ _ (hk2 i), lookupK_eraseK_ne _ _ _ (hk2 i)]
    show lookupK (invStoreMixin c (some i) st) k = lookupK st k
    have hunfold : invStoreMixin c (some i) st =
        (if cache_base_key c = "products" then
          eraseK "product_discounted" (eraseK "product_featured"
            (eraseK (registry_key c)
              (eraseList (regKeysOf (lookupVal
                (eraseK (get_cache_key_detail c i)
                  (eraseK (get_cache_key_detail c i) st))
                (registry_key c)))
                (eraseK (get_cache_key_detail c i)
                  (eraseK (get_cache_key_detail c i) st)))))
        else eraseK (registry_key c)
          (eraseList (regKeysOf (lookupVal
            (eraseK (get_cache_key_detail c i)
              (eraseK (get_cache_key_detail c i) st))
            (registry_key c)))
            (eraseK (get_cache_key_detail c i)
              (eraseK (get_cache_key_detail c i) st)))) := rfl
    rw [hunfold, htail, hfin]

theorem lookupK_invStore_other (c : Coll) (iid : Option Nat) (st : Store)
    (k : String) (hinv : RegOK st c)
    (hk1 : k ≠ registry_key c)
    (hk2 : ∀ i, k ≠ get_cache_key_detail c i)
    (hk3 : k ≠ cache_base_key c ++ "_list:")
    (hk4 : k ≠ "product_featured")
    (hk5 : k ≠ "product_discounted") :
    lookupK (invStore c iid st) k = lookupK st k := by
  cases c with
  | categories =>
    exact lookupK_invStoreMixin_other Coll.categories iid st k hinv
      hk1 hk2 hk3 hk4 hk5
  | products =>
    simp only [invStore]
    rw [lookupK_eraseK_ne _ _ _ hk5, lookupK_eraseK_ne _ _ _ hk4]
    exact lookupK_invStoreMixin_other Coll.products iid st k hinv
      hk1 hk2 hk3 hk4 hk5

theorem lookupK_sweep_tail_listkey (c : Coll) (st1 : Store)
    (hreg1 : lookupK st1 (registry_key c) = none ∨
      lookupK st1 (registry_key c) =
        some (PyVal.pyKeys [cache_base_key c ++ "_list:"], none))
    (hlk : lookupK st1 (registry_key c) = none →
      lookupK st1 (cache_base_key c ++ "_list:") = none) :
    lookupK (if cache_base_key c = "products" then
        eraseK "product_discounted" (eraseK "product_featured"
          (eraseK (registry_key c)
            (eraseList (regKeysOf (lookupVal st1 (registry_key c))) st1)))
      else eraseK (registry_key c)
        (eraseList (regKeysOf (lookupVal st1 (registry_key c))) st1))
      (cache_base_key c ++ "_list:") = none := by
  have hlrk : (cache_base_key c ++ "_list:") ≠ registry_key c := by
    cases c <;> decide
  have hmain : lookupK (eraseK (registry_key c)
      (eraseList (regKeysOf (lookupVal st1 (registry_key c))) st1))
      (cache_base_key c ++ "_list:") = none := by
    rw [lookupK_eraseK_ne _ _ _ hlrk]
    rcases hreg1 with hreg | hreg
    · have hv : lookupVal st1 (registry_key c) = none := by
        simp [lookupVal, hreg]
      rw [hv]
      simp only [regKeysOf, eraseList_nil]
      exact hlk hreg
    · have hv : lookupVal st1 (registry_key c) =
          some (PyVal.pyKeys [cache_base_key c ++ "_list:"]) := by
        simp [lookupVal, hreg]
      rw [hv]
      simp only [regKeysOf]
      exact lookupK_eraseList_mem _ _ _ (List.mem_singleton.mpr rfl)
  cases c with
  | categories =>
    rw [if_neg (by simp [cache_base_key])]
    exact hmain
  | products =>
    rw [if_pos (by simp [cache_base_key])]
    rw [lookupK_eraseK_ne _ _ _ (by decide), lookupK_eraseK_ne _ _ _ (by decide)]
    exact hmain

theorem lookupK_invStoreMixin_listkey (c : Coll) (iid : Option Nat)
    (st : Store) (hinv : RegOK st c) :
    lookupK (invStoreMixin c iid st) (cache_base_key c ++ "_list:") = none := by
  have hlknone : lookupK st (registry_key c) = none →
      lookupK st (cache_base_key c ++ "_list:") = none := by
    intro hrn
    rcases hx : lookupK st (cache_base_key c ++ "_list:") with _ | w
    · rfl
    · exfalso
      have hv : lookupVal st (cache_base_key c ++ "_list:") = some w.1 := by
        simp [lookupVal, hx]
      have := hinv.2 w.1 hv
      rw [hrn] at this
      cases this
  cases iid with
  | none =>
    simp only [invStoreMixin]
    exact lookupK_sweep_tail_listkey c st hinv.1 hlknone
  | some i =>
    have hdrk : registry_key c ≠ get_cache_key_detail c i :=
      Ne.symm (gckd_ne_special c i _ (by cases c <;> decide))
    have hdlk : (cache_base_key c ++ "_list:") ≠ get_cache_key_detail c i :=
      Ne.symm (gckd_ne_special c i _ (by cases c <;> decide))
    have hst1reg : lookupK (eraseK (get_cache_key_detail c i)
        (eraseK (get_cache_key_detail c i) st)) (registry_key c) =
        lookupK st (registry_key c) := by
      rw [lookupK_eraseK_ne _ _ _ hdrk, lookupK_eraseK_ne _ _ _ hdrk]
    have hst1lk : lookupK (eraseK (get_cache_key_detail c i)
        (eraseK (get_cache_key_detail c i) st))
        (cache_base_key c ++ "_list:") =
        lookupK st (cache_base_key c ++ "_list:") := by
      rw [lookupK_eraseK_ne _ _ _ hdlk, lookupK_eraseK_ne _ _ _ hdlk]
    have htail := lookupK_sweep_tail_listkey c
      (eraseK (get_cache_key_detail c i) (eraseK (get_cache_key_detail c i) st))
      (by rw [hst1reg]; exact hinv.1)
      (by
        intro hrn
        rw [hst1reg] at hrn
        rw [hst1lk]
        exact hlknone hrn)
    exact htail

theorem lookupK_invStore_listkey (c : Coll) (iid : Option Nat) (st : Store)
    (hinv : RegOK st c) :
    lookupK (invStore c iid st) (cache_base_key c ++ "_list:") = none := by
  cases c with
  | categories => exact lookupK_invStoreMixin_listkey Coll.categories iid st hinv
  | products =>
    simp only [invStore]
    rw [lookupK_eraseK_ne _ _ _ (by decide), lookupK_eraseK_ne _ _ _ (by decide)]
    exact lookupK_invStoreMixin_listkey Coll.products iid st hinv

/-- The full cache invariant: registry discipline for both collections. -/
def CacheInv (st : Store) : Prop :=
  RegOK st Coll.categories ∧ RegOK st Coll.products

theorem RegOK_frame (st2 st : Store) (c : Coll)
    (hr : lookupK st2 (registry_key c) = lookupK st (registry_key c))
    (hl : lookupK st2 (cache_base_key c ++ "_list:") =
      lookupK st (cache_base_key c ++ "_list:"))
    (h : RegOK st c) : RegOK st2 c := by
  constructor
  · rw [hr]
    exact h.1
  · intro v hv
    rw [hr]
    apply h.2 v
    simpa [lookupVal, hl] using hv

theorem RegOK_setK (st : Store) (k : String) (v : PyVal) (t : Option Nat)
    (c : Coll) (h1 : k ≠ registry_key c)
    (h2 : k ≠ cache_base_key c ++ "_list:") (h : RegOK st c) :
    RegOK (setK k v t st) c := by
  apply RegOK_frame _ st c
  · exact lookupK_setK_ne _ _ _ _ _ (Ne.symm h1)
  · exact lookupK_setK_ne _ _ _ _ _ (Ne.symm h2)
  · exact h

theorem RegOK_expireK (st : Store) (k : String) (c : Coll)
    (h : RegOK st c) : RegOK (expireK k st) c := by
  unfold expireK
  rcases hlk : lookupK st k with _ | w
  · exact h
  · rcases w with ⟨wv, _ | wt⟩
    · exact h
    · have hkrk : k ≠ registry_key c := by
        intro hx
        subst hx
        rcases h.1 with hreg | hreg
        · rw [hlk] at hreg
          cases hreg
        · rw [hlk] at hreg
          cases hreg
      by_cases hk2 : k = cache_base_key c ++ "_list:"
      · subst hk2
        constructor
        · rw [lookupK_eraseK_ne _ _ _ (Ne.symm hkrk)]
          exact h.1
        · intro v hv
          exfalso
          rw [lookupVal, lookupK_eraseK_self] at hv
          cases hv
      · apply RegOK_frame _ st c
        · exact lookupK_eraseK_ne _ _ _ (Ne.symm hkrk)
        · exact lookupK_eraseK_ne _ _ _ (Ne.symm hk2)
        · exact h

theorem RegOK_invStore_self (c : Coll) (iid : Option Nat) (st : Store)
    (hc : RegOK st c) : RegOK (invStore c iid st) c := by
  constructor
  · exact Or.inl (lookupK_invStore_reg c iid st)
  · intro v hv
    exfalso
    have hn := lookupK_invStore_listkey c iid st hc
    rw [lookupVal, hn] at hv
    cases hv

theorem CacheInv_invStore (c : Coll) (iid : Option Nat) (st : Store)
    (h : CacheInv st) : CacheInv (invStore c iid st) := by
  cases c with
  | categories =>
    refine ⟨RegOK_invStore_self Coll.categories iid st h.1, ?_⟩
    apply RegOK_frame _ st Coll.products
    · exact lookupK_invStore_other Coll.categories iid st
        (registry_key Coll.products) h.1 (by decide)
        (fun i => Ne.symm (gckd_ne_special Coll.categories i _ (by decide)))
        (by decide) (by decide) (by decide)
    · exact lookupK_invStore_other Coll.categories iid st
        (cache_base_key Coll.products ++ "_list:") h.1 (by decide)
        (fun i => Ne.symm (gckd_ne_special Coll.categories i _ (by decide)))
        (by decide) (by decide) (by decide)
    · exact h.2
  | products =>
    refine ⟨?_, RegOK_invStore_self Coll.products iid st h.2⟩
    apply RegOK_frame _ st Coll.categories
    · exact lookupK_invStore_other Coll.products iid st
        (registry_key Coll.categories) h.2 (by decide)
        (fun i => Ne.symm (gckd_ne_special Coll.products i _ (by decide)))
        (by decide) (by decide) (by decide)
    · exact lookupK_invStore_other Coll.products iid st
        (cache_base_key Coll.categories ++ "_list:") h.2 (by decide)
        (fun i => Ne.symm (gckd_ne_special Coll.products i _ (by decide)))
        (by decide) (by decide) (by decide)
    · exact h.1

theorem listkey_ne_registry (c : Coll) :
    (cache_base_key c ++ "_list:") ≠ registry_key c := by
  cases c <;> decide

theorem CacheInv_setK (st : Store) (k : String) (v : PyVal) (t : Option Nat)
    (h1 : k ≠ registry_key Coll.categories)
    (h2 : k ≠ cache_base_key Coll.categories ++ "_list:")
    (h3 : k ≠ registry_key Coll.products)
    (h4 : k ≠ cache_base_key Coll.products ++ "_list:")
    (h : CacheInv st) : CacheInv (setK k v t st) :=
  ⟨RegOK_setK st k v t Coll.categories h1 h2 h.1,
    RegOK_setK st k v t Coll.products h3 h4 h.2⟩

theorem stepA_CacheInv (a : Act) (s : St) (h : CacheInv s.store) :
    CacheInv (stepA noFail a s).store := by
  cases a with
  | alist c q =>
    simp only [stepA]
    rcases hk : get_cache_key_list c q with _ | ck
    · have hb : (CachingMixin.list noFail c q s).2.store = s.store := by
        simp only [CachingMixin.list, hk]
        rfl
      rw [hb]
      exact h
    · have hckval := get_cache_key_list_some c q ck hk
      subst hckval
      have hRc : RegOK s.store c := by
        cases c with
        | categories => exact h.1
        | products => exact h.2
      have hrkne : registry_key c ≠ cache_base_key c ++ "_list:" :=
        Ne.symm (listkey_ne_registry c)
      simp only [CachingMixin.list, hk, cacheGet_noFail]
      split
      · exact h
      · simp only [listMiss, cacheSet_noFail, cacheGet_noFail, pushEv]
        rw [if_neg (by exact underlyingList_ne_pyNone c _ q)]
        have hrv : lookupVal (setK (cache_base_key c ++ "_list:")
            (underlyingList c s.db q) (some CACHE_TTL) s.store)
            (registry_key c) = lookupVal s.store (registry_key c) :=
          lookupVal_setK_ne _ _ _ _ _ hrkne
        split
        · next hcont =>
          rcases hRc.1 with hreg | hreg
          · exfalso
            have hvn : lookupVal s.store (registry_key c) = none := by
              simp [lookupVal, hreg]
            rw [hrv, hvn] at hcont
            simp [regKeysOf] at hcont
          · have hnew : RegOK (setK (cache_base_key c ++ "_list:")
                (underlyingList c s.db q) (some CACHE_TTL) s.store) c := by
              constructor
              · refine Or.inr ?_
                rw [lookupK_setK_ne _ _ _ _ _ hrkne]
                exact hreg
              · intro v hv
                rw [lookupK_setK_ne _ _ _ _ _ hrkne]
                exact hreg
            cases c with
            | categories =>
              exact ⟨hnew, RegOK_setK _ _ _ _ Coll.products (by decide)
                (by decide) h.2⟩
            | products =>
              exact ⟨RegOK_setK _ _ _ _ Coll.categories (by decide)
                (by decide) h.1, hnew⟩
        · next hcont =>
          have hnew : ∀ ks2 : List String,
              regKeysOf (lookupVal s.store (registry_key c)) = ks2 →
              RegOK (setK (registry_key c)
                (PyVal.pyKeys (ks2 ++ [cache_base_key c ++ "_list:"])) none
                (setK (cache_base_key c ++ "_list:")
                  (underlyingList c s.db q) (some CACHE_TTL) s.store)) c := by
            intro ks2 hks2
            rcases hRc.1 with hreg | hreg
            · have hvn : lookupVal s.store (registry_key c) = none := by
                simp [lookupVal, hreg]
              rw [hvn] at hks2
              simp only [regKeysOf] at hks2
              subst hks2
              constructor
              · refine Or.inr ?_
                rw [lookupK_setK_self]
                rfl
              · intro v hv
                rw [lookupK_setK_self]
                rfl
            · exfalso
              have hvs : lookupVal s.store (registry_key c) =
                  some (PyVal.pyKeys [cache_base_key c ++ "_list:"]) := by
                simp [lookupVal, hreg]
              rw [hrv, hvs] at hcont
              simp [regKeysOf] at hcont
          have hmem := hnew (regKeysOf (lookupVal s.store (registry_key c))) rfl
          rw [← hrv] at hmem
          cases c with
          | categories =>
            refine ⟨hmem, ?_⟩
            apply RegOK_setK _ _ _ _ Coll.products (by decide) (by decide)
            exact RegOK_setK _ _ _ _ Coll.products (by decide) (by decide) h.2
          | products =>
            refine ⟨?_, hmem⟩
            apply RegOK_setK _ _ _ _ Coll.categories (by decide) (by decide)
            exact RegOK_setK _ _ _ _ Coll.categories (by decide) (by decide) h.1
  | aretrieve c i =>
    simp only [stepA, CachingMixin.retrieve, cacheGet_noFail]
    split
    · exact h
    · simp only [retrieveMiss]
      split
      · exact h
      · simp only [cacheSet_noFail]
        exact CacheInv_setK _ _ _ _
          (rck_ne_special c i _ (by decide)) (rck_ne_special c i _ (by decide))
          (rck_ne_special c i _ (by decide)) (rck_ne_special c i _ (by decide)) h
  | afeatured =>
    simp only [stepA, ProductViewSet.featured, cacheGet_noFail]
    split
    · exact h
    · simp only [cacheSet_noFail]
      exact CacheInv_setK _ _ _ _ (by decide) (by decide) (by decide) (by decide) h
  | adiscounted =>
    simp only [stepA, ProductViewSet.discounted, cacheGet_noFail]
    split
    · exact h
    · simp only [cacheSet_noFail]
      exact CacheInv_setK _ _ _ _ (by decide) (by decide) (by decide) (by decide) h
  | acreate c e =>
    simp only [stepA, CachingMixin.perform_create, invalidateFor_noFail_store]
    exact CacheInv_invStore c none s.store h
  | aupdate c e =>
    simp only [stepA, CachingMixin.perform_update, invalidateFor_noFail_store]
    exact CacheInv_invStore c (some e.eid) s.store h
  | adestroy c i =>
    simp only [stepA, destroyEndpoint]
    split
    · exact h
    · simp only [CachingMixin.perform_destroy]
      split
      · exact h
      · rw [invalidateFor_noFail_store]
        exact CacheInv_invStore c _ s.store h
  | aexpire k =>
    simp only [stepA]
    exact ⟨RegOK_expireK s.store k Coll.categories h.1,
      RegOK_expireK s.store k Coll.products h.2⟩

theorem runActs_CacheInv (acts : List Act) (s : St) (h : CacheInv s.store) :
    CacheInv (runActs noFail acts s).store := by
  induction acts generalizing s with
  | nil => exact h
  | cons a acts ih =>
    exact ih (stepA noFail a s) (stepA_CacheInv a s h)

theorem CacheInv_init (db : Db) : CacheInv (initSt db).store := by
  constructor <;> exact ⟨Or.inl rfl, fun v hv => by cases hv⟩

/-- A system state reachable by running engine actions from an empty cache
over some database. -/
def Reachable (s : St) : Prop :=
  ∃ db acts, s = runActs noFail acts (initSt db)

/-- C9: in every reachable state, whenever a collection's list cache key
holds a value, the key registry entry for that collection is present in
the same store under `{cache_base_key}_list_keys`, is stored with no
expiry (`timeout=None`, so TTL expiry can never remove it), and contains
that list key; and the registry entry, when present, is exactly the
singleton of the collection's list key. -/
theorem c9_registry_invariant (s : St) (h : Reachable s) :
    CacheInv s.store := by
  rcases h with ⟨db, acts, rfl⟩
  exact runActs_CacheInv acts (initSt db) (CacheInv_init db)

/-- Witness for C9: the state after one populating product list request is
reachable, and the invariant instantiated there. -/
theorem c9_registry_invariant_witness : CacheInv c5sPopulated.store :=
  c9_registry_invariant c5sPopulated
    ⟨sampleDb, [Act.alist Coll.products emptyQuery], rfl⟩
